import Mathlib

/-!
Verification development for the obsidian-tasks-syncer plugin.

The embedding below translates the token-lifecycle layer
(`src/services/microsoft.ts`, `AuthManager`), the Graph REST client
(`src/api.ts`, `MicrosoftTaskService`) and the orchestrator methods of
`src/main.ts` (`pushTasksFromNote`, `pushOneTask`, `deleteAllCompletedTasks`,
`gatherTasks`) into Lean.  JavaScript `Map` objects are modelled as
association lists that preserve insertion order, matching the iteration
semantics of `Map` (insertion order; `set` on an existing key replaces the
value in place).  Promise rejections and thrown `Error` objects are modelled
with `Except` over an error type distinguishing thrown `Error` messages from
runtime `TypeError` crashes.  External collaborators (the MSAL library, the
Graph endpoint, the Electron browser window) are modelled as injected
outcome functions; the calls issued to them are recorded in an explicit
trace.
-/

namespace TasksSyncer

/-! ## JavaScript `Map` model

The method `Map.prototype.set` keeps the position of an existing key and
replaces its value; a fresh key is appended.  `Map.prototype.values()`
iterates in insertion order. -/

def jsSet {α : Type} (m : List (String × α)) (k : String) (v : α) :
    List (String × α) :=
  match m with
  | [] => [(k, v)]
  | (k₁, v₁) :: rest =>
      if k₁ = k then (k, v) :: rest else (k₁, v₁) :: jsSet rest k v

def jsLookup {α : Type} (m : List (String × α)) (k : String) : Option α :=
  match m with
  | [] => none
  | (k₁, v₁) :: rest => if k₁ = k then some v₁ else jsLookup rest k

def jsKeys {α : Type} (m : List (String × α)) : List String :=
  m.map Prod.fst

def jsValues {α : Type} (m : List (String × α)) : List α :=
  m.map Prod.snd

/-! ## Error model

Thrown `new Error(message)` values are `.thrown message`; a JavaScript
runtime `TypeError` (reading a property of `undefined`) is `.typeError`. -/

inductive JSError : Type where
  | thrown (message : String) : JSError
  | typeError : JSError
deriving DecidableEq, Repr

/-! ## AuthManager (`src/services/microsoft.ts`, auth section)

The MSAL `ConfidentialClientApplication` and the on-disk token-cache file
are external collaborators.  The serialized cache is opaque except for its
`RefreshToken` section, which the code reads after a
deserialize/serialize/`JSON.parse` round trip (the library round trip is
modelled as the identity on this abstraction).  `refreshTokens = none`
models a parsed cache whose `RefreshToken` field is absent or falsy;
`refreshTokens = some entries` models a present `RefreshToken` object whose
own enumerable keys, in `Object.keys` order, map to `{ secret }` records. -/

structure TokenCacheFile where
  refreshTokens : Option (List (String × String))

inductive AuthCall : Type where
  | interactiveLogin : AuthCall
  | acquireTokenByRefreshToken (secret : String) : AuthCall
  | saveTokenCache : AuthCall
deriving DecidableEq, Repr

structure AuthEnv where
  /-- result of `fs.existsSync(this.tokenFilePath)` -/
  fileExists : Bool
  /-- contents of the token-cache file, as read and parsed by the code -/
  cache : TokenCacheFile
  /-- outcome of `cca.acquireTokenByRefreshToken` for a given refresh-token
  secret: a rejection, or a resolution with `null` (`.ok none`) or with a
  token response carrying an access token (`.ok (some tok)`) -/
  acquireByRefreshToken : String → Except JSError (Option String)
  /-- outcome of the interactive login flow (`getAccessToken`), which is
  driven by an external browser window -/
  interactiveOutcome : Except JSError String

def noTokenCacheMsg : String := "No token cache found. Please login first."

def noRefreshTokenMsg : String := "No refresh token found in the cache."

def noRefreshResponseMsg : String := "No token response received from refresh."

/-- Embeds `AuthManager.refreshAccessTokenWithCCA`, returning the result
together with the trace of calls to the MSAL library and the cache file.
The `try { ... } catch (error) { throw error }` wrapper around the token
exchange rethrows the caught error unchanged, so it is the identity on the
failure path. -/
def refreshAccessTokenWithCCA (env : AuthEnv) :
    Except JSError String × List AuthCall :=
  if env.fileExists = false then
    (Except.error (JSError.thrown noTokenCacheMsg), [])
  else
    match env.cache.refreshTokens with
    | none => (Except.error (JSError.thrown noRefreshTokenMsg), [])
    | some [] =>
        -- `Object.keys(refreshTokenObject)[0]` is `undefined`, so
        -- `refreshTokenObject[refreshTokenKey].secret` crashes
        (Except.error JSError.typeError, [])
    | some ((_, secret) :: _) =>
        match env.acquireByRefreshToken secret with
        | Except.error e =>
            (Except.error e, [AuthCall.acquireTokenByRefreshToken secret])
        | Except.ok none =>
            (Except.error (JSError.thrown noRefreshResponseMsg),
             [AuthCall.acquireTokenByRefreshToken secret])
        | Except.ok (some tok) =>
            (Except.ok tok,
             [AuthCall.acquireTokenByRefreshToken secret,
              AuthCall.saveTokenCache])

/-- Embeds `AuthManager.getAccessToken` (interactive browser flow),
abstracted to its injected outcome; it performs the interactive login
only. -/
def getAccessToken (env : AuthEnv) : Except JSError String × List AuthCall :=
  (env.interactiveOutcome, [AuthCall.interactiveLogin])

/-- Embeds `AuthManager.getToken`. -/
def getToken (env : AuthEnv) : Except JSError String × List AuthCall :=
  if env.fileExists = true then refreshAccessTokenWithCCA env
  else getAccessToken env

/-- Recognizes the interactive-login call in a trace. -/
def isInteractive : AuthCall → Bool
  | AuthCall.interactiveLogin => true
  | _ => false

/-! ## Task API Client (`src/api.ts` and `MicrosoftTaskService`)

`TaskItem` is the record from `src/types.ts`; `RawTask` is one element of
the Graph response's `value` array as far as the code reads it.  An
`HttpResponse` carries the fields the code consults: `status`, the raw body
`text`, the parsed `value` array (`none` when `data.value` is absent or not
an array), and `statusText` (consulted only by the `fetch`-based
`updateTaskListName`). -/

structure TaskItem where
  id : String
  title : String
  status : String
  dueDateTime : Option String
deriving DecidableEq, Repr

structure RawTask where
  id : String
  title : String
  status : String
  dueDateTime : Option String
deriving DecidableEq, Repr

structure HttpResponse where
  status : Nat
  text : String
  value : Option (List RawTask)
  statusText : String
deriving Repr

/-- Models `String.prototype.trim()`: strips whitespace from both ends
(written over the character list so that it evaluates by reduction). -/
def trimChars (cs : List Char) : List Char :=
  ((cs.dropWhile (fun c => c.isWhitespace)).reverse.dropWhile
    (fun c => c.isWhitespace)).reverse

def jsTrim (s : String) : String :=
  String.mk (trimChars s.data)

/-- Builds the `TaskItem` stored for a response element: `title` is the
trimmed response title (`const title = task.title.trim()`). -/
def taskOfRaw (t : RawTask) : TaskItem :=
  { id := t.id, title := jsTrim t.title, status := t.status,
    dueDateTime := t.dueDateTime }

/-- Embeds the loop body of `fetchTasks`: `tasks.set(title, {...})` over
the response items in order. -/
def fetchTasksMap (items : List RawTask) : List (String × TaskItem) :=
  items.foldl (fun m t => jsSet m (jsTrim t.title) (taskOfRaw t)) []

/-- Models the `data.value && Array.isArray(data.value)` guard: a missing
or non-array `value` contributes no items. -/
def respItems (resp : HttpResponse) : List RawTask :=
  resp.value.getD []

/-- Embeds `fetchTasks` from `src/api.ts` (the
`MicrosoftTaskService.fetchTasks` method builds the identical map, with
`res.json.value || []`). -/
def fetchTasksResult (resp : HttpResponse) :
    Except JSError (List (String × TaskItem)) :=
  if resp.status ≠ 200 then
    Except.error (JSError.thrown ("Failed to fetch tasks: " ++ resp.text))
  else
    Except.ok (fetchTasksMap (respItems resp))

/-- Modelled from the spec: "collapsing duplicates to the last-seen item" —
the last response item whose trimmed title is `k`, independently of the
`Map`-based construction in the code. -/
def lastSeen (items : List RawTask) (k : String) : Option TaskItem :=
  match items with
  | [] => none
  | t :: rest =>
      match lastSeen rest k with
      | some v => some v
      | none => if jsTrim t.title = k then some (taskOfRaw t) else none

/-! Remaining `src/api.ts` operations, as far as the claims consult them:
the status check and the construction of the thrown error message. -/

def createTaskResult (resp : HttpResponse) : Except JSError Unit :=
  if resp.status ≠ 201 then
    Except.error (JSError.thrown ("Failed to create task: " ++ resp.text))
  else Except.ok ()

def updateTaskResult (resp : HttpResponse) : Except JSError Unit :=
  if resp.status ≠ 200 then
    Except.error (JSError.thrown ("Failed to update task: " ++ resp.text))
  else Except.ok ()

def deleteTaskResult (resp : HttpResponse) : Except JSError Unit :=
  if resp.status ≠ 204 then
    Except.error (JSError.thrown ("Failed to delete task: " ++ resp.text))
  else Except.ok ()

def apiFetchTaskListsResult (resp : HttpResponse) : Except JSError Unit :=
  if resp.status ≠ 200 then
    Except.error (JSError.thrown ("Failed to fetch task lists: " ++ resp.text))
  else Except.ok ()

/-- Embeds the `MicrosoftTaskService.fetchTaskLists` failure path. -/
def msFetchTaskListsResult (resp : HttpResponse) : Except JSError Unit :=
  if resp.status ≠ 200 then
    Except.error (JSError.thrown ("Failed to fetch lists: " ++ resp.text))
  else Except.ok ()

/-- Embeds `updateTaskListName` from `src/api.ts`, which uses the `fetch`
API: `response.ok` is `200 ≤ status < 300`, and the thrown message embeds
`response.statusText`, not the body. -/
def updateTaskListNameResult (resp : HttpResponse) : Except JSError Unit :=
  if 200 ≤ resp.status ∧ resp.status < 300 then Except.ok ()
  else
    Except.error
      (JSError.thrown ("Error updating list name: " ++ resp.statusText))

/-! ## Orchestrator (`src/main.ts`)

Calls issued to `src/api.ts` are recorded in a trace.  The `createTask`
entry records the third and fourth positional argument the orchestrator
passes (`taskTitle` and `dueDate`); the `updateTask` entry records
`taskId`, `title`, `status`, `dueDate`. -/

inductive ApiCall : Type where
  | fetchTasks : ApiCall
  | createTask (title : String) (dueDate : Option String) : ApiCall
  | updateTask (taskId : String) (title : Option String)
      (status : Option Bool) (dueDate : Option String) : ApiCall
  | deleteTask (taskId : String) : ApiCall
deriving DecidableEq, Repr

def noListSelectedMsg : String :=
  "No task list selected. Please choose one in settings."

def noActiveFileMsg : String := "No active file found."

def noTasksFoundMsg : String := "No tasks found in the active note."

/-! ### Checklist-line extraction

The method `pushTasksFromNote` extracts tasks with
`/^-\s*\[( |x)\]\s+(.+)$/gm` and trims the captured text; `gatherTasks`
uses `/^\s*-\s*\[( |x)\]\s+(.*)$/gm` (optional leading whitespace,
possibly-empty capture).  The class `\s` is modelled by
`Char.isWhitespace` and line terminators by the newline character.  The
`pushTasksFromNote` pattern is modelled per line, which coincides with the
multiline scan on contents whose checklist lines all carry non-empty text,
as in the inputs it is evaluated at below.  Because `\s` also matches the
newline, `gatherTasks`'s scan is modelled over the whole file content
(`gatherScan` below): a match may span line boundaries, and
`parseGatherLine` is kept as the single-line reading of the same pattern,
for comparison. -/

/-- Parses `\[( |x)\]`: a bracket pair whose inside is a space or `x`. -/
def parseBracket (cs : List Char) : Option (Bool × List Char) :=
  match cs with
  | '[' :: c :: ']' :: rest =>
      if c = 'x' then some (true, rest)
      else if c = ' ' then some (false, rest)
      else none
  | _ => none

/-- Parses `\s+(.+)$`: at least one whitespace, then a non-empty capture
running to the end of the line.  The greedy `\s+` backtracks one character
when everything left is whitespace, so an all-whitespace remainder of
length at least two still matches, capturing its last character. -/
def parseTailPlus (cs : List Char) : Option String :=
  match cs with
  | [] => none
  | c :: _ =>
      if c.isWhitespace then
        let t := cs.dropWhile (fun c => c.isWhitespace)
        if t.isEmpty then
          if 2 ≤ cs.length then some (String.mk (cs.drop (cs.length - 1)))
          else none
        else some (String.mk t)
      else none

/-- Parses `\s+(.*)$`: at least one whitespace, then a possibly-empty
capture. -/
def parseTailStar (cs : List Char) : Option String :=
  match cs with
  | [] => none
  | c :: _ =>
      if c.isWhitespace then
        some (String.mk (cs.dropWhile (fun c => c.isWhitespace)))
      else none

/-- Parses one line of `/^-\s*\[( |x)\]\s+(.+)$/` followed by
`match[2].trim()`; returns the trimmed title and the completion flag. -/
def parseNoteTaskLine (line : String) : Option (String × Bool) :=
  match line.data with
  | '-' :: rest =>
      match parseBracket (rest.dropWhile (fun c => c.isWhitespace)) with
      | some (done, rest₂) =>
          (parseTailPlus rest₂).map (fun cap => (jsTrim cap, done))
      | none => none
  | _ => none

/-- Parses one LINE under the single-line reading of
`/^\s*-\s*\[( |x)\]\s+(.*)$/` followed by `match[2].trim()`: the natural
notion of "a checklist line".  The program applies the pattern to whole
file contents, where `\s` also consumes newlines (`gatherScan` below); the
two agree on every line whose match stays within the line. -/
def parseGatherLine (line : String) : Option (String × Bool) :=
  match line.data.dropWhile (fun c => c.isWhitespace) with
  | '-' :: rest =>
      match parseBracket (rest.dropWhile (fun c => c.isWhitespace)) with
      | some (done, rest₂) =>
          (parseTailStar rest₂).map (fun cap => (jsTrim cap, done))
      | none => none
  | _ => none

/-! ### `pushTasksFromNote` -/

structure PushEnv where
  selectedTaskListId : Option String
  /-- the active note's lines; `none` models no active file -/
  activeNoteLines : Option (List String)
  /-- items returned by the (successful) `fetchTasks` call -/
  remoteItems : List RawTask
  /-- outcome of each `createTask(settings, token, title, dueDate)` call -/
  createOutcome : String → Option String → Except JSError Unit
  /-- outcome of each `updateTask(settings, token, id, undefined, true)`
  call -/
  updateOutcome : String → Except JSError Unit

/-- Embeds the `for (const task of noteTasks)` loop.  `existingTasks` is
fetched once before the loop and never updated inside it.  A rejection from
`updateTask` or `createTask` aborts the loop and propagates (the outer
`catch` logs and rethrows).  Note that the orchestrator passes
`initialStatus` (`"completed"`/`"notStarted"`) as the fourth positional
argument of `createTask`, which is its `dueDate` parameter. -/
def pushLoop (env : PushEnv) (existingTasks : List (String × TaskItem)) :
    List (String × Bool) → Except JSError Nat × List ApiCall
  | [] => (Except.ok 0, [])
  | (title, complete) :: rest =>
      match jsLookup existingTasks title with
      | some existingTask =>
          if complete && !(existingTask.status == "completed") then
            let call := ApiCall.updateTask existingTask.id none (some true) none
            match env.updateOutcome existingTask.id with
            | Except.error e => (Except.error e, [call])
            | Except.ok _ =>
                let r := pushLoop env existingTasks rest
                (r.1, call :: r.2)
          else
            pushLoop env existingTasks rest
      | none =>
          let initialStatus := if complete then "completed" else "notStarted"
          let call := ApiCall.createTask title (some initialStatus)
          match env.createOutcome title (some initialStatus) with
          | Except.error e => (Except.error e, [call])
          | Except.ok _ =>
              let r := pushLoop env existingTasks rest
              (r.1.map (fun n => n + 1), call :: r.2)

/-- Embeds `TaskSyncerPlugin.pushTasksFromNote` (token acquisition and the
task fetch taken on their success path, with `remoteItems` the fetched
items). -/
def pushTasksFromNote (env : PushEnv) : Except JSError Nat × List ApiCall :=
  match env.selectedTaskListId with
  | none => (Except.error (JSError.thrown noListSelectedMsg), [])
  | some _ =>
      match env.activeNoteLines with
      | none => (Except.error (JSError.thrown noActiveFileMsg), [])
      | some lines =>
          let noteTasks := lines.filterMap parseNoteTaskLine
          if noteTasks.isEmpty then
            (Except.error (JSError.thrown noTasksFoundMsg), [])
          else
            let existingTasks := fetchTasksMap env.remoteItems
            let r := pushLoop env existingTasks noteTasks
            (r.1, ApiCall.fetchTasks :: r.2)

/-! ### `pushOneTask` -/

structure PushOneEnv where
  selectedTaskListId : Option String
  remoteItems : List RawTask
  createOutcome : String → Option String → Except JSError Unit

/-- Embeds `TaskSyncerPlugin.pushOneTask`.  The `if (existingTask)` branch
only logs `"Task already exists"`; control falls through to `createTask`
unconditionally, and `refreshViewAndCache` then triggers another fetch. -/
def pushOneTask (env : PushOneEnv) (task : String) (dueDate : Option String) :
    Except JSError Unit × List ApiCall :=
  match env.selectedTaskListId with
  | none => (Except.error (JSError.thrown noListSelectedMsg), [])
  | some _ =>
      let existingTasks := fetchTasksMap env.remoteItems
      let _logged := (jsLookup existingTasks task).isSome
      let call := ApiCall.createTask task dueDate
      match env.createOutcome task dueDate with
      | Except.error e => (Except.error e, [ApiCall.fetchTasks, call])
      | Except.ok _ =>
          (Except.ok (), [ApiCall.fetchTasks, call, ApiCall.fetchTasks])

/-! ### `deleteAllCompletedTasks` and its command boundary -/

structure DeleteEnv where
  selectedTaskListId : Option String
  /-- the task map served by `getTasksFromSelectedList` (cache-hit path) -/
  tasks : List (String × TaskItem)
  /-- outcome of each `deleteTask(settings, token, id)` call -/
  deleteOutcome : String → Except JSError Unit

/-- Embeds the `for (const task of completedTasks)` loop: the number of
deletes that succeeded (`deletedTasksCount` at loop exit or at the failure
point), the first rejection if any, and the delete calls issued. -/
def deleteLoop (outcome : String → Except JSError Unit) :
    List TaskItem → Nat × Option JSError × List ApiCall
  | [] => (0, none, [])
  | t :: rest =>
      match outcome t.id with
      | Except.error e => (0, some e, [ApiCall.deleteTask t.id])
      | Except.ok _ =>
          let r := deleteLoop outcome rest
          (r.1 + 1, r.2.1, ApiCall.deleteTask t.id :: r.2.2)

/-- Embeds `TaskSyncerPlugin.deleteAllCompletedTasks`.  The
no-list-selected check throws before the `try`; inside the `try`, any
rejection is caught by
`catch (error) { console.error(...); return deletedTasksCount; }`, which
returns the partial count as an ordinary (successful) result, whether or
not the loop failed part-way. -/
def deleteAllCompletedTasks (env : DeleteEnv) :
    Except JSError Nat × List ApiCall :=
  match env.selectedTaskListId with
  | none => (Except.error (JSError.thrown noListSelectedMsg), [])
  | some _ =>
      let completedTasks :=
        (jsValues env.tasks).filter (fun t => t.status == "completed")
      let r := deleteLoop env.deleteOutcome completedTasks
      (Except.ok r.1, r.2.2)

inductive Notification : Type where
  | info (message : String) : Notification
  | success (message : String) : Notification
  | failure (message : String) : Notification
deriving DecidableEq, Repr

/-- Embeds the `delete-completed-tasks` command callback registered by the
plugin: notify, await `deleteAllCompletedTasks`, then notify success with
the count, or catch and notify the error message. -/
def deleteCompletedCommand (env : DeleteEnv) : List Notification :=
  match deleteAllCompletedTasks env with
  | (Except.ok n, _) =>
      [Notification.info "Deleting completed tasks...",
       Notification.success
         (toString n ++ " completed tasks deleted successfully!")]
  | (Except.error _, _) =>
      [Notification.info "Deleting completed tasks...",
       Notification.failure
         "Error deleting tasks. Check the console for details."]

/-! ### `gatherTasks` -/

/-- Embeds one regex match inside the `while` loop of `gatherTasks`. -/
def gatherStep (m : List (String × String)) (occ : String × Bool) :
    List (String × String) :=
  let currentState := if occ.2 then "[x]" else "[ ]"
  if (jsLookup m occ.1).isSome then
    if currentState = "[x]" then jsSet m occ.1 ("[x]") else m
  else
    jsSet m occ.1 currentState

def gatherMap (occs : List (String × Bool)) : List (String × String) :=
  occs.foldl gatherStep []

/-- Attempts one match of `/^\s*-\s*\[( |x)\]\s+(.*)$/m` at an anchored
position of the content, returning the occurrence (trimmed capture and
flag) and the remainder of the content after the match end.  Every greedy
element of this pattern is followed by something it cannot consume (`\s*`
by `-` and `[`, the maximal `\s+` run by a non-whitespace character or the
end, after which `.*` runs to the line end where `$` holds), so the regex
needs no backtracking and this deterministic reading is exact.  All the
`\s` steps consume newlines, which is how a match can span lines. -/
def gatherMatchAt (cs : List Char) : Option ((String × Bool) × List Char) :=
  match cs.dropWhile (fun c => c.isWhitespace) with
  | '-' :: rest₂ =>
      match parseBracket (rest₂.dropWhile (fun c => c.isWhitespace)) with
      | some (done, rest₄) =>
          match rest₄ with
          | c :: _ =>
              if c.isWhitespace then
                let rest₅ := rest₄.dropWhile (fun c => c.isWhitespace)
                let cap := rest₅.takeWhile (fun c => c ≠ '\n')
                let rem := rest₅.dropWhile (fun c => c ≠ '\n')
                some ((jsTrim (String.mk cap), done), rem)
              else none
          | [] => none
      | none => none
  | _ => none

/-- Runs the `taskRegex.exec(content)` loop: the engine attempts the
pattern at each position from the last match end onward, and `^` (with the
`m` flag) admits only the content start and positions just after a
newline; each found match resumes after its end (which lies before a
newline or at the end, hence never itself an anchor).  The fuel starts at
the content length and strictly exceeds every suffix reached, since each
step consumes at least one character (`gatherScanAux_fuel` below proves
the fuel irrelevant from that bound up). -/
def gatherScanAux : Nat → List Char → Bool → List (String × Bool)
  | 0, _, _ => []
  | _ + 1, [], _ => []
  | fuel + 1, c :: rest, atAnchor =>
      if atAnchor then
        match gatherMatchAt (c :: rest) with
        | some (occ, rem) => occ :: gatherScanAux fuel rem false
        | none => gatherScanAux fuel rest (c == '\n')
      else gatherScanAux fuel rest (c == '\n')

/-- Scans one file's full content for checklist matches, as the `while`
loop over `taskRegex.exec(content)` does. -/
def gatherScan (content : String) : List (String × Bool) :=
  gatherScanAux content.data.length content.data true

/-- Collects every checklist match across the vault's markdown files (each
given as its full content), in file order and match order. -/
def gatherOccs (files : List String) : List (String × Bool) :=
  (files.map (fun content => gatherScan content)).flatten

/-- Embeds `TaskSyncerPlugin.gatherTasks`: all matches folded into
`tasksMap`. -/
def gatherTasks (files : List String) : List (String × String) :=
  gatherMap (gatherOccs files)

/-- Builds the consolidated note content: `- state text` per entry, joined
by newlines. -/
def buildNoteContent (m : List (String × String)) : String :=
  String.intercalate "\n" (m.map (fun p => "- " ++ p.2 ++ " " ++ p.1))

/-- Modelled from the spec: some occurrence of text `t` is checked. -/
def anyChecked (occs : List (String × Bool)) (t : String) : Bool :=
  occs.any (fun o => o.1 == t && o.2)

/-- Modelled from the spec: the distinct texts in first-seen order. -/
def firstSeenOrder (occs : List (String × Bool)) : List String :=
  occs.foldl (fun acc o => if o.1 ∈ acc then acc else acc ++ [o.1]) []

/-! ### Concrete inputs used by counterexamples and witnesses -/

/-- Token-cache file whose `RefreshToken` section is present but holds no
entries (as MSAL serializes when no refresh token was stored). -/
def envC3 : AuthEnv :=
  { fileExists := true,
    cache := { refreshTokens := some [] },
    acquireByRefreshToken := fun _ => Except.error JSError.typeError,
    interactiveOutcome := Except.error JSError.typeError }

def respC6 : HttpResponse :=
  { status := 500, text := "boom", value := none, statusText := "ERR" }

def respC6W : HttpResponse :=
  { status := 502, text := "gateway", value := none,
    statusText := "Bad Gateway" }

def envC5 : PushEnv :=
  { selectedTaskListId := some ("list1"),
    activeNoteLines := some ["- [ ] A", "- [x] B", "- [ ] A"],
    remoteItems := [],
    createOutcome := fun _ _ => Except.ok (),
    updateOutcome := fun _ => Except.ok () }

def tasksABC : List (String × TaskItem) :=
  [("A", { id := "idA", title := "A", status := "completed",
           dueDateTime := none }),
   ("B", { id := "idB", title := "B", status := "notStarted",
           dueDateTime := none }),
   ("C", { id := "idC", title := "C", status := "completed",
           dueDateTime := none })]

def envC8 : DeleteEnv :=
  { selectedTaskListId := some ("list1"),
    tasks := tasksABC,
    deleteOutcome := fun _ => Except.ok () }

def envC7 : DeleteEnv :=
  { selectedTaskListId := some ("list1"),
    tasks := tasksABC,
    deleteOutcome := fun i =>
      if i == "idC" then Except.error (JSError.thrown ("network down"))
      else Except.ok () }

def envC9 : PushOneEnv :=
  { selectedTaskListId := some ("list1"),
    remoteItems := [{ id := "id1", title := "A", status := "notStarted",
                      dueDateTime := none }],
    createOutcome := fun _ _ => Except.ok () }

/-- Vault contents: one file holding the lines `- [ ]` and `- [x] A`, and
a second file holding the line `- [ ] A`. -/
def filesCX : List String := ["- [ ]\n- [x] A", "- [ ] A"]

/-! ## Association-list lemmas -/

theorem jsLookup_jsSet {α : Type} (m : List (String × α)) (k k₂ : String)
    (v : α) :
    jsLookup (jsSet m k v) k₂ = if k = k₂ then some v else jsLookup m k₂ := by
  induction m with
  | nil =>
      by_cases h : k = k₂ <;> simp [jsSet, jsLookup, h]
  | cons p rest ih =>
      obtain ⟨k₁, v₁⟩ := p
      by_cases h₁ : k₁ = k
      · subst h₁
        by_cases h₂ : k₁ = k₂ <;> simp [jsSet, jsLookup, h₂]
      · by_cases h₂ : k₁ = k₂
        · subst h₂
          have h₃ : ¬ k = k₁ := fun h => h₁ h.symm
          simp [jsSet, jsLookup, h₁, h₃]
        · simp [jsSet, jsLookup, h₁, h₂, ih]

theorem jsKeys_jsSet {α : Type} (m : List (String × α)) (k : String) (v : α) :
    jsKeys (jsSet m k v) =
      if k ∈ jsKeys m then jsKeys m else jsKeys m ++ [k] := by
  induction m with
  | nil => simp [jsSet, jsKeys]
  | cons p rest ih =>
      obtain ⟨k₁, v₁⟩ := p
      by_cases h₁ : k₁ = k
      · subst h₁
        simp [jsSet, jsKeys]
      · have hne : ¬ k = k₁ := fun h => h₁ h.symm
        by_cases hm : k ∈ jsKeys rest
        · simp only [jsKeys] at ih hm ⊢
          simp [jsSet, h₁, hne, hm, ih, List.mem_cons]
        · simp only [jsKeys] at ih hm ⊢
          simp [jsSet, h₁, hne, hm, ih, List.mem_cons]

theorem jsSet_length {α : Type} (m : List (String × α)) (k : String) (v : α) :
    (jsSet m k v).length ≤ m.length + 1 := by
  induction m with
  | nil => simp [jsSet]
  | cons p rest ih =>
      obtain ⟨k₁, v₁⟩ := p
      by_cases h₁ : k₁ = k
      · simp [jsSet, h₁]
      · simp only [jsSet, h₁, if_false, List.length_cons]
        omega

theorem jsLookup_eq_none_iff {α : Type} (m : List (String × α)) (k : String) :
    jsLookup m k = none ↔ k ∉ jsKeys m := by
  induction m with
  | nil => simp [jsLookup, jsKeys]
  | cons p rest ih =>
      obtain ⟨k₁, v₁⟩ := p
      by_cases h₁ : k₁ = k
      · subst h₁
        simp [jsLookup, jsKeys]
      · have hne : ¬ k = k₁ := fun h => h₁ h.symm
        simp [jsLookup, jsKeys, h₁, hne, ih]

/-! ## Lemmas on the `fetchTasks` map construction -/

theorem jsLookup_foldl_set (items : List RawTask)
    (m : List (String × TaskItem)) (k : String) :
    jsLookup (items.foldl (fun m t => jsSet m (jsTrim t.title) (taskOfRaw t)) m) k
      = match lastSeen items k with
        | some v => some v
        | none => jsLookup m k := by
  induction items generalizing m with
  | nil => simp [lastSeen]
  | cons t rest ih =>
      simp only [List.foldl_cons, ih, lastSeen]
      cases hrest : lastSeen rest k with
      | some v => simp
      | none =>
          simp only [jsLookup_jsSet]
          by_cases h : jsTrim t.title = k <;> simp [h]

theorem foldl_set_length (items : List RawTask)
    (m : List (String × TaskItem)) :
    (items.foldl (fun m t => jsSet m (jsTrim t.title) (taskOfRaw t)) m).length
      ≤ m.length + items.length := by
  induction items generalizing m with
  | nil => simp
  | cons t rest ih =>
      calc (List.foldl _ (jsSet m (jsTrim t.title) (taskOfRaw t)) rest).length
          ≤ (jsSet m (jsTrim t.title) (taskOfRaw t)).length + rest.length := ih _
        _ ≤ m.length + 1 + rest.length := by
            have := jsSet_length m (jsTrim t.title) (taskOfRaw t)
            omega
        _ = m.length + (t :: rest).length := by simp; omega

theorem lastSeen_eq_none_iff (items : List RawTask) (k : String) :
    lastSeen items k = none ↔ k ∉ items.map (fun t => jsTrim t.title) := by
  induction items with
  | nil => simp [lastSeen]
  | cons t rest ih =>
      cases hrest : lastSeen rest k with
      | some v =>
          have hm : k ∈ rest.map (fun t => jsTrim t.title) := by
            by_contra hk
            rw [ih.mpr hk] at hrest
            cases hrest
          simp [lastSeen, hrest, hm, List.mem_cons]
      | none =>
          have hk : k ∉ rest.map (fun t => jsTrim t.title) := ih.mp hrest
          by_cases ht : jsTrim t.title = k
          · simp [lastSeen, hrest, ht, List.mem_cons]
          · simp only [lastSeen, hrest, ht, if_false, List.map_cons,
              List.mem_cons, true_iff, not_or]
            exact ⟨fun h => ht h.symm, hk⟩

theorem lastSeen_title (items : List RawTask) (k : String) (v : TaskItem)
    (h : lastSeen items k = some v) : v.title = k := by
  induction items with
  | nil => simp [lastSeen] at h
  | cons t rest ih =>
      simp only [lastSeen] at h
      cases hrest : lastSeen rest k with
      | some w =>
          rw [hrest] at h
          have h₂ : some w = some v := h
          cases h₂
          exact ih hrest
      | none =>
          rw [hrest] at h
          have h₂ : (if jsTrim t.title = k then some (taskOfRaw t) else none)
              = some v := h
          by_cases ht : jsTrim t.title = k
          · rw [if_pos ht] at h₂
            cases h₂
            simpa [taskOfRaw] using ht
          · rw [if_neg ht] at h₂
            cases h₂

theorem jsLookup_fetchTasksMap (items : List RawTask) (k : String) :
    jsLookup (fetchTasksMap items) k = lastSeen items k := by
  rw [fetchTasksMap, jsLookup_foldl_set]
  cases lastSeen items k <;> simp [jsLookup]

theorem mem_jsKeys_fetchTasksMap (items : List RawTask) (k : String) :
    k ∈ jsKeys (fetchTasksMap items)
      ↔ k ∈ items.map (fun t => jsTrim t.title) := by
  have h₁ : jsLookup (fetchTasksMap items) k = none ↔
      k ∉ jsKeys (fetchTasksMap items) :=
    jsLookup_eq_none_iff (fetchTasksMap items) k
  have h₂ : (k ∉ jsKeys (fetchTasksMap items))
      ↔ (k ∉ items.map (fun t => jsTrim t.title)) := by
    rw [← h₁, jsLookup_fetchTasksMap, lastSeen_eq_none_iff]
  exact not_iff_not.mp h₂

/-! ## Lemmas on the `gatherTasks` scan -/

theorem lengthDropWhileLe {α : Type} (p : α → Bool) (l : List α) :
    (l.dropWhile p).length ≤ l.length := by
  induction l with
  | nil => simp
  | cons a l ih =>
      rw [List.dropWhile_cons]
      by_cases h : p a = true
      · rw [if_pos h]
        simp only [List.length_cons]
        omega
      · rw [if_neg h]

theorem parseBracket_length (cs : List Char) (b : Bool) (rest : List Char)
    (h : parseBracket cs = some (b, rest)) : rest.length + 3 = cs.length := by
  unfold parseBracket at h
  split at h
  · split at h
    · injection h with h₁
      injection h₁ with h₂ h₃
      subst h₃
      simp
    · split at h
      · injection h with h₁
        injection h₁ with h₂ h₃
        subst h₃
        simp
      · cases h
  · cases h

theorem gatherMatchAt_shrinks (cs : List Char) (occ : String × Bool)
    (rem : List Char) (h : gatherMatchAt cs = some (occ, rem)) :
    rem.length < cs.length := by
  unfold gatherMatchAt at h
  split at h
  next x₁ rest₂ heq =>
    have h₂ : rest₂.length < cs.length := by
      have h₀ := lengthDropWhileLe (fun c => c.isWhitespace) cs
      rw [heq] at h₀
      simp only [List.length_cons] at h₀
      omega
    split at h
    next x₂ done rest₄ heq₂ =>
      have h₄ : rest₄.length ≤ rest₂.length := by
        have hb := parseBracket_length _ _ _ heq₂
        have hd := lengthDropWhileLe (fun c => c.isWhitespace) rest₂
        omega
      split at h
      next c tail =>
        split at h
        next hw =>
          injection h with h₁
          injection h₁ with ha hb
          have h₅ := lengthDropWhileLe (fun c => c.isWhitespace) (c :: tail)
          have h₆ := lengthDropWhileLe (fun c => decide (c ≠ '\n'))
            (List.dropWhile (fun c => c.isWhitespace) (c :: tail))
          rw [hb] at h₆
          simp only [List.length_cons] at h₄ h₅
          omega
        next hw => cases h
      next => cases h
    next x₂ heq₂ => cases h
  next x₁ heq => cases h

theorem gatherScanAux_fuel (fuel₁ : Nat) :
    ∀ (fuel₂ : Nat) (cs : List Char) (b : Bool),
      cs.length ≤ fuel₁ → cs.length ≤ fuel₂ →
      gatherScanAux fuel₁ cs b = gatherScanAux fuel₂ cs b := by
  induction fuel₁ with
  | zero =>
      intro fuel₂ cs b h₁ h₂
      have hnil : cs = [] := List.eq_nil_of_length_eq_zero (by omega)
      subst hnil
      cases fuel₂ <;> rfl
  | succ fuel ih =>
      intro fuel₂ cs b h₁ h₂
      cases cs with
      | nil => cases fuel₂ <;> rfl
      | cons c rest =>
          cases fuel₂ with
          | zero => simp at h₂
          | succ k =>
              simp only [List.length_cons] at h₁ h₂
              show gatherScanAux (fuel + 1) (c :: rest) b
                = gatherScanAux (k + 1) (c :: rest) b
              unfold gatherScanAux
              cases hb : b
              · exact ih k rest (c == '\n') (by omega) (by omega)
              · simp only [if_true]
                cases hm : gatherMatchAt (c :: rest) with
                | some pr =>
                    obtain ⟨occ, rem⟩ := pr
                    have hs := gatherMatchAt_shrinks _ _ _ hm
                    simp only [List.length_cons] at hs
                    show occ :: gatherScanAux fuel rem false
                      = occ :: gatherScanAux k rem false
                    rw [ih k rem false (by omega) (by omega)]
                | none =>
                    show gatherScanAux fuel rest (c == '\n')
                      = gatherScanAux k rest (c == '\n')
                    exact ih k rest (c == '\n') (by omega) (by omega)

/-! ## Lemmas on the `gatherTasks` map construction -/

theorem jsLookup_foldl_gather_some (occs : List (String × Bool))
    (m : List (String × String)) (t s : String)
    (h : jsLookup m t = some s) :
    jsLookup (occs.foldl gatherStep m) t
      = some (if anyChecked occs t then "[x]" else s) := by
  induction occs generalizing m s with
  | nil => simp [anyChecked, h]
  | cons o rest ih =>
      obtain ⟨txt, done⟩ := o
      rw [List.foldl_cons]
      by_cases ht : txt = t
      · subst ht
        cases done with
        | true =>
            have hstep : gatherStep m (txt, true) = jsSet m txt ("[x]") := by
              unfold gatherStep
              rw [h]
              rfl
            have h₂ : jsLookup (jsSet m txt ("[x]")) txt = some ("[x]") := by
              rw [jsLookup_jsSet]
              simp
            rw [hstep, ih _ _ h₂]
            simp [anyChecked, List.any_cons]
        | false =>
            have hstep : gatherStep m (txt, false) = m := by
              unfold gatherStep
              rw [h]
              rfl
            rw [hstep, ih _ _ h]
            simp [anyChecked, List.any_cons]
      · have hstep : jsLookup (gatherStep m (txt, done)) t = some s := by
          unfold gatherStep
          cases hm : (jsLookup m txt).isSome
          · simp only [hm, Bool.false_eq_true, if_false, jsLookup_jsSet, ht,
              if_false]
            exact h
          · cases done
            · simpa using h
            · simp only [hm, if_true]
              simp only [jsLookup_jsSet, ht, if_false, if_true]
              simpa using h
        rw [ih _ _ hstep]
        simp [anyChecked, List.any_cons, ht]

theorem jsLookup_foldl_gather_none (occs : List (String × Bool))
    (m : List (String × String)) (t : String) (h : jsLookup m t = none) :
    jsLookup (occs.foldl gatherStep m) t
      = if t ∈ occs.map Prod.fst then
          some (if anyChecked occs t then "[x]" else "[ ]")
        else none := by
  induction occs generalizing m with
  | nil => simp [anyChecked, h]
  | cons o rest ih =>
      obtain ⟨txt, done⟩ := o
      rw [List.foldl_cons]
      by_cases ht : txt = t
      · subst ht
        have hstep : gatherStep m (txt, done)
            = jsSet m txt (if done then "[x]" else "[ ]") := by
          unfold gatherStep
          rw [h]
          cases done <;> rfl
        have h₂ : jsLookup (jsSet m txt (if done then "[x]" else "[ ]")) txt
            = some (if done then "[x]" else "[ ]") := by
          rw [jsLookup_jsSet]
          simp
        rw [hstep, jsLookup_foldl_gather_some rest _ _ _ h₂]
        cases done <;>
          simp [anyChecked, List.any_cons, List.mem_cons, ite_self]
      · have ht₂ : ¬ t = txt := fun hh => ht hh.symm
        have hstep : jsLookup (gatherStep m (txt, done)) t = none := by
          unfold gatherStep
          cases hm : (jsLookup m txt).isSome
          · simp only [hm, Bool.false_eq_true, if_false, jsLookup_jsSet, ht,
              if_false]
            exact h
          · cases done
            · simpa using h
            · simp only [hm, if_true]
              simp only [jsLookup_jsSet, ht, if_false, if_true]
              simpa using h
        rw [ih _ hstep]
        simp [anyChecked, List.any_cons, List.mem_cons, ht, ht₂]

theorem jsKeys_gatherStep (m : List (String × String)) (o : String × Bool) :
    jsKeys (gatherStep m o)
      = if o.1 ∈ jsKeys m then jsKeys m else jsKeys m ++ [o.1] := by
  obtain ⟨txt, done⟩ := o
  unfold gatherStep
  cases hm : (jsLookup m txt).isSome
  · have hnone : jsLookup m txt = none := by
      cases hh : jsLookup m txt
      · rfl
      · rw [hh] at hm
        simp at hm
    have hmem : txt ∉ jsKeys m := (jsLookup_eq_none_iff m txt).mp hnone
    cases done <;> simp [jsKeys_jsSet, hmem]
  · have hmem : txt ∈ jsKeys m := by
      by_contra hn
      rw [(jsLookup_eq_none_iff m txt).mpr hn] at hm
      simp at hm
    cases done <;> simp [jsKeys_jsSet, hmem]

theorem jsKeys_foldl_gather (occs : List (String × Bool))
    (m : List (String × String)) :
    jsKeys (occs.foldl gatherStep m)
      = occs.foldl (fun acc o => if o.1 ∈ acc then acc else acc ++ [o.1])
          (jsKeys m) := by
  induction occs generalizing m with
  | nil => rfl
  | cons o rest ih =>
      rw [List.foldl_cons, List.foldl_cons, ih, jsKeys_gatherStep]

/-! ## Claim theorems -/

/-- C1: `getToken` performs only the interactive login flow when the token
cache file does not exist, and is exactly `refreshAccessTokenWithCCA`
(result and trace, errors included and unchanged) when it exists; the
refresh path never issues an interactive login, so a refresh failure never
falls back to the interactive flow. -/
theorem getToken_no_fallback (env : AuthEnv) :
    getToken env
      = (if env.fileExists = true then refreshAccessTokenWithCCA env
         else (env.interactiveOutcome, [AuthCall.interactiveLogin]))
    ∧ ((refreshAccessTokenWithCCA env).2.any isInteractive) = false := by
  constructor
  · cases hb : env.fileExists <;> simp [getToken, getAccessToken, hb]
  · unfold refreshAccessTokenWithCCA
    cases hfe : env.fileExists
    · simp
    · simp only [Bool.true_eq_false, if_false]
      cases hc : env.cache.refreshTokens with
      | none => simp
      | some entries =>
          cases entries with
          | nil => simp
          | cons e rest =>
              obtain ⟨k, secret⟩ := e
              cases hacq : env.acquireByRefreshToken secret with
              | error err => simp [hacq, isInteractive]
              | ok o => cases o <;> simp [hacq, isInteractive]

/-- C2: calling `refreshAccessTokenWithCCA` when the token cache file does
not exist fails with the `NoTokenCache` error, and the call trace is empty:
no token exchange (network call) is attempted. -/
theorem refresh_noCache (env : AuthEnv) :
    refreshAccessTokenWithCCA { env with fileExists := false }
      = (Except.error (JSError.thrown noTokenCacheMsg), []) := by
  simp [refreshAccessTokenWithCCA]

/-- C3 counterexample: a token-cache file whose deserialized cache has a
present but empty `RefreshToken` section lacks any refresh-token entry,
yet the call fails with a runtime `TypeError` (reading `.secret` of
`undefined`), not with the `NoRefreshToken` error. -/
theorem refresh_emptySection_typeError :
    refreshAccessTokenWithCCA envC3 = (Except.error JSError.typeError, [])
    ∧ (JSError.typeError == JSError.thrown noRefreshTokenMsg) = false := by
  exact ⟨rfl, by decide⟩

/-- C3 amended: `refreshAccessTokenWithCCA` on an existing cache file fails
with `NoRefreshToken` exactly when the parsed cache's `RefreshToken` field
is absent (or falsy); when the field is present but holds no entries it
fails with a runtime type error instead; and when one or more entries
exist, the first call issued is the exchange of the first entry's secret. -/
theorem refresh_first_entry (env : AuthEnv) (k secret : String)
    (entries : List (String × String)) :
    refreshAccessTokenWithCCA
        { env with fileExists := true, cache := { refreshTokens := none } }
      = (Except.error (JSError.thrown noRefreshTokenMsg), [])
    ∧ refreshAccessTokenWithCCA
        { env with fileExists := true, cache := { refreshTokens := some [] } }
      = (Except.error JSError.typeError, [])
    ∧ (refreshAccessTokenWithCCA
        { env with fileExists := true, cache := { refreshTokens := some ((k, secret) :: entries) } }).2.head?
      = some (AuthCall.acquireTokenByRefreshToken secret) := by
  refine ⟨by simp [refreshAccessTokenWithCCA],
          by simp [refreshAccessTokenWithCCA], ?_⟩
  simp only [refreshAccessTokenWithCCA]
  cases hacq : env.acquireByRefreshToken secret with
  | error e => simp
  | ok o => cases o <;> simp

/-- C4: for every successful `fetchTasks` response, the map's key set
equals the set of trimmed titles of the returned items, its size is at most
the number of items, lookups return the last-seen item for each trimmed
title, and each stored item's title equals its key. -/
theorem fetchTasks_map_spec (resp : HttpResponse) :
    fetchTasksResult { resp with status := 200 }
      = Except.ok (fetchTasksMap (respItems resp))
    ∧ (∀ k, k ∈ jsKeys (fetchTasksMap (respItems resp))
          ↔ k ∈ (respItems resp).map (fun t => jsTrim t.title))
    ∧ (fetchTasksMap (respItems resp)).length ≤ (respItems resp).length
    ∧ (∀ k, jsLookup (fetchTasksMap (respItems resp)) k
          = lastSeen (respItems resp) k)
    ∧ (∀ k, ((jsLookup (fetchTasksMap (respItems resp)) k).map
          (fun v => v.title)).getD k = k) := by
  refine ⟨by simp [fetchTasksResult, respItems], ?_, ?_, ?_, ?_⟩
  · intro k
    exact mem_jsKeys_fetchTasksMap (respItems resp) k
  · have := foldl_set_length (respItems resp) []
    simpa [fetchTasksMap] using this
  · intro k
    exact jsLookup_fetchTasksMap (respItems resp) k
  · intro k
    cases hl : jsLookup (fetchTasksMap (respItems resp)) k with
    | none => rfl
    | some v =>
        rw [jsLookup_fetchTasksMap] at hl
        simpa using lastSeen_title (respItems resp) k v hl

/-- C5: evaluation at the failing input.  Pushing the note
`- [ ] A` / `- [x] B` / `- [ ] A` against an empty remote list issues
three create calls (the duplicate `A` is created twice, because the
fetched map is not updated during the loop) and passes the intended
status string as the `dueDate` argument, so no create call marks `B`
completed; the method returns 3. -/
theorem pushTasksFromNote_dup_eval :
    pushTasksFromNote envC5
      = (Except.ok 3,
         [ApiCall.fetchTasks,
          ApiCall.createTask ("A") (some ("notStarted")),
          ApiCall.createTask ("B") (some ("completed")),
          ApiCall.createTask ("A") (some ("notStarted"))]) := by
  rfl

/-- C6 counterexample: a failing `fetchTasks` response with status 500 and
body `boom` raises a message that embeds the body but contains no digit of
the status; the failing `updateTaskListName` raises a message that embeds
only the `statusText` and contains no character of the body. -/
theorem remoteError_missing_status :
    fetchTasksResult respC6
      = Except.error (JSError.thrown ("Failed to fetch tasks: boom"))
    ∧ ("Failed to fetch tasks: boom").data.contains '5' = false
    ∧ updateTaskListNameResult respC6
      = Except.error (JSError.thrown ("Error updating list name: ERR"))
    ∧ ("Error updating list name: ERR").data.contains 'b' = false := by
  refine ⟨rfl, by decide, ?_, by decide⟩
  simp [updateTaskListNameResult, respC6]

/-- C6 amended: each failing client operation raises an error whose message
embeds the response body text unmodified after a fixed prefix — but not the
HTTP status; `updateTaskListName` instead embeds only the HTTP
`statusText`, omitting both status and body. -/
theorem remoteError_body_only (resp : HttpResponse)
    (h200 : resp.status ≠ 200) (h201 : resp.status ≠ 201)
    (h204 : resp.status ≠ 204)
    (h2xx : ¬ (200 ≤ resp.status ∧ resp.status < 300)) :
    fetchTasksResult resp
      = Except.error (JSError.thrown ("Failed to fetch tasks: " ++ resp.text))
    ∧ createTaskResult resp
      = Except.error (JSError.thrown ("Failed to create task: " ++ resp.text))
    ∧ updateTaskResult resp
      = Except.error (JSError.thrown ("Failed to update task: " ++ resp.text))
    ∧ deleteTaskResult resp
      = Except.error (JSError.thrown ("Failed to delete task: " ++ resp.text))
    ∧ apiFetchTaskListsResult resp
      = Except.error
          (JSError.thrown ("Failed to fetch task lists: " ++ resp.text))
    ∧ msFetchTaskListsResult resp
      = Except.error (JSError.thrown ("Failed to fetch lists: " ++ resp.text))
    ∧ updateTaskListNameResult resp
      = Except.error
          (JSError.thrown ("Error updating list name: " ++ resp.statusText)) := by
  refine ⟨?_, ?_, ?_, ?_, ?_, ?_, ?_⟩ <;>
    simp [fetchTasksResult, createTaskResult, updateTaskResult,
      deleteTaskResult, apiFetchTaskListsResult, msFetchTaskListsResult,
      updateTaskListNameResult, h200, h201, h204, h2xx]

/-- C6 amended, witness at the concrete response `respC6W`. -/
theorem remoteError_body_only_witness :
    fetchTasksResult respC6W
      = Except.error
          (JSError.thrown ("Failed to fetch tasks: " ++ respC6W.text))
    ∧ createTaskResult respC6W
      = Except.error
          (JSError.thrown ("Failed to create task: " ++ respC6W.text))
    ∧ updateTaskResult respC6W
      = Except.error
          (JSError.thrown ("Failed to update task: " ++ respC6W.text))
    ∧ deleteTaskResult respC6W
      = Except.error
          (JSError.thrown ("Failed to delete task: " ++ respC6W.text))
    ∧ apiFetchTaskListsResult respC6W
      = Except.error
          (JSError.thrown ("Failed to fetch task lists: " ++ respC6W.text))
    ∧ msFetchTaskListsResult respC6W
      = Except.error
          (JSError.thrown ("Failed to fetch lists: " ++ respC6W.text))
    ∧ updateTaskListNameResult respC6W
      = Except.error
          (JSError.thrown
            ("Error updating list name: " ++ respC6W.statusText)) :=
  remoteError_body_only respC6W (by decide) (by decide) (by decide)
    (by decide)

/-- C7 counterexample: with tasks `A` completed, `B` not started, `C`
completed and the delete of `idC` rejecting, `deleteAllCompletedTasks`
returns the partial count 1 as a successful result instead of surfacing
the error, and the command boundary reports success. -/
theorem deleteAllCompleted_swallows :
    deleteAllCompletedTasks envC7
      = (Except.ok 1,
         [ApiCall.deleteTask ("idA"), ApiCall.deleteTask ("idC")])
    ∧ deleteCompletedCommand envC7
      = [Notification.info ("Deleting completed tasks..."),
         Notification.success ("1 completed tasks deleted successfully!")] := by
  exact ⟨rfl, rfl⟩

/-- C7 amended: the pre-`try` no-list-selected error propagates to the
command boundary and is converted to an error notification there; but once
a list is selected, `deleteAllCompletedTasks` always returns a successful
result — a failure part-way through its delete loop is caught inside the
method and the partial count is reported as success. -/
theorem deleteAllCompleted_partial_count (env : DeleteEnv) :
    (deleteAllCompletedTasks env).1.isOk = env.selectedTaskListId.isSome
    ∧ deleteCompletedCommand env
      = (match env.selectedTaskListId with
         | none =>
             [Notification.info ("Deleting completed tasks..."),
              Notification.failure
                ("Error deleting tasks. Check the console for details.")]
         | some _ =>
             [Notification.info ("Deleting completed tasks..."),
              Notification.success
                (toString (deleteLoop env.deleteOutcome
                    ((jsValues env.tasks).filter
                      (fun t => t.status == "completed"))).1
                  ++ " completed tasks deleted successfully!")]) := by
  cases h : env.selectedTaskListId <;>
    simp [deleteAllCompletedTasks, deleteCompletedCommand, h, Except.isOk,
      Except.toBool]

/-- C8: over the cached tasks `A` completed, `B` not started, `C`
completed, `deleteAllCompletedTasks` issues exactly one delete call per
completed task (`idA` and `idC`, in map order), none for the not-started
task, and returns 2. -/
theorem deleteAllCompleted_two :
    deleteAllCompletedTasks envC8
      = (Except.ok 2,
         [ApiCall.deleteTask ("idA"), ApiCall.deleteTask ("idC")]) := by
  rfl

/-- C9: evaluation at the failing input.  The fetched map contains the
title `A`, yet `pushOneTask` still issues a create request for `A` (the
existing-task check only logs), so creation is not suppressed. -/
theorem pushOneTask_creates_duplicate :
    (jsLookup (fetchTasksMap envC9.remoteItems) ("A")).isSome = true
    ∧ pushOneTask envC9 ("A") none
      = (Except.ok (),
         [ApiCall.fetchTasks, ApiCall.createTask ("A") none,
          ApiCall.fetchTasks]) := by
  exact ⟨rfl, rfl⟩

/-- C10 counterexample: on the files `- [ ]` + `- [x] A` and `- [ ] A`,
the text `A` appears in two checklist lines with the first of them checked
(as the single-line reading of the pattern attests), yet the program's
scan lets `\s+` consume the newline after the empty-texted `- [ ]` line
and swallows the whole checked line into that match's captured text, so
text `A` gets only one (unchecked) occurrence and the consolidated map
holds `[ ]` for `A` — refuting the claimed done-wins rule. -/
theorem gatherTasks_crossline_swallow :
    parseGatherLine ("- [x] A") = some (("A"), true)
    ∧ parseGatherLine ("- [ ] A") = some (("A"), false)
    ∧ gatherTasks filesCX = [(("- [x] A"), ("[ ]")), (("A"), ("[ ]"))]
    ∧ jsLookup (gatherTasks filesCX) ("A") = some ("[ ]") := by
  exact ⟨rfl, rfl, rfl, rfl⟩

/-- C10 amended: `gatherTasks` merges duplicate task texts across all
notes with a done-wins rule over the occurrences its regex scan actually
produces — the map holds `[x]` for a text exactly when some produced
occurrence of it is checked, `[ ]` when all its produced occurrences are
unchecked, and nothing for absent texts — and its keys (hence the
consolidated note's lines) list the distinct texts in first-seen order.
Because `\s` matches the newline, a checklist line swallowed into the
capture of a preceding empty-texted line yields no occurrence of its own
text. -/
theorem gatherTasks_merge_occurrences (files : List String) :
    (∀ t, jsLookup (gatherTasks files) t
        = if t ∈ (gatherOccs files).map Prod.fst then
            some (if anyChecked (gatherOccs files) t then "[x]" else "[ ]")
          else none)
    ∧ jsKeys (gatherTasks files) = firstSeenOrder (gatherOccs files) := by
  constructor
  · intro t
    exact jsLookup_foldl_gather_none (gatherOccs files) [] t rfl
  · have := jsKeys_foldl_gather (gatherOccs files) []
    simpa [gatherTasks, gatherMap, firstSeenOrder, jsKeys] using this

end TasksSyncer
